import Mathlib

/-!
Verification of the ScreenPad capture worker (`src/workers/capture-worker.ts`)
against its natural-language specification.

The development shallowly embeds the worker's data model and operations:

* JavaScript strings are modelled as `List Char`; `String.prototype.toLowerCase`
  as `lowerStr` (`Char.toLower`, adequate for the ASCII keywords involved);
  `String.prototype.includes` as `containsSub`.
* The external crypto digests (`createHash('sha256')`, `createHash('md5')`)
  are modelled as fixed deterministic functions of the byte sequence
  (`sha256Hex`, `md5Hex`); only determinism of the digest is used by
  the theorems, never any property of the particular function.
* The Prisma-persisted tables (`screen`, `capture`, `screenFile`) are modelled
  by the `DB` structure.  `capture` rows are kept newest-first, so
  `findFirst(orderBy createdAt desc)` is the head of the filtered list.
* `processJob` is modelled as a function of the initial database, the job, and
  an `Env` describing the behaviour of the external collaborators (browser,
  codec, OCR, object storage): the data they return and the first pipeline
  stage, if any, at which a collaborator or database write throws.
-/

/-! ### JavaScript string primitives -/

/-- Model of `String.prototype.toLowerCase` on the ASCII fragment used by the
worker: lowercases every character. -/
def lowerStr (s : List Char) : List Char := s.map Char.toLower

/-- Model of `String.prototype.includes`: `containsSub needle hay` is true
exactly when `needle` occurs contiguously inside `hay`. -/
def containsSub (needle hay : List Char) : Bool :=
  match hay with
  | [] => needle.isEmpty
  | c :: t => needle.isPrefixOf (c :: t) || containsSub needle t





/-! ### Fingerprint Engine (hash models)

`createHash('sha256')` and `createHash('md5')` are external library
collaborators.  They are modelled as concrete deterministic functions of the
input bytes; no theorem below relies on anything but their determinism. -/

/-- Model of the `sha256` hex digest of a byte sequence. -/
def sha256Hex (bytes : List Nat) : Nat :=
  bytes.foldl (fun a b => a * 257 + b + 1) 7

/-- Model of the `md5` hex digest of a byte sequence (the worker's `imgHash`). -/
def md5Hex (bytes : List Nat) : Nat :=
  bytes.foldl (fun a b => a * 131 + b + 1) 3

/-- `getDomHash`: sha256 digest of the serialized DOM text
(`capture-worker.ts` lines 242-245). -/
def domHashOf (domContent : List Char) : Nat :=
  sha256Hex (domContent.map Char.toNat)

/-! ### Tag Classifier (`generateAITags`, lines 279-304) -/

/-- Model of `Set.add` on the tag set: JavaScript `Set` preserves insertion
order and ignores re-insertion, and `Array.from` reads the set back in
insertion order. -/
def addTag (tags : List (List Char)) (t : List Char) : List (List Char) :=
  if t ∈ tags then tags else tags ++ [t]

/-- `generateAITags` (lines 279-304): sequentially tests each keyword of its
fixed vocabulary against the lowercased URL and the lowercased OCR text
(`text = ocrText || ''`) and adds the matching labels into a set. -/
def generateAITags (url : List Char) (ocrText : Option (List Char)) :
    List (List Char) :=
  let text := ocrText.getD []
  let urlLower := lowerStr url
  let tags0 : List (List Char) := []
  let tags1 :=
    if containsSub ("checkout".toList) urlLower ||
        containsSub ("checkout".toList) (lowerStr text) then
      addTag tags0 ("checkout".toList)
    else tags0
  let tags2 :=
    if containsSub ("payment".toList) urlLower ||
        containsSub ("payment".toList) (lowerStr text) then
      addTag tags1 ("payment".toList)
    else tags1
  let tags3 :=
    if containsSub ("ticket".toList) urlLower ||
        containsSub ("ticket".toList) (lowerStr text) then
      addTag tags2 ("ticket".toList)
    else tags2
  let tags4 :=
    if containsSub ("event".toList) urlLower ||
        containsSub ("event".toList) (lowerStr text) then
      addTag tags3 ("event".toList)
    else tags3
  let tags5 :=
    if containsSub ("room".toList) urlLower ||
        containsSub ("room".toList) (lowerStr text) then
      addTag tags4 ("accommodation".toList)
    else tags4
  tags5

/-- The classifier's fixed vocabulary, as (keyword, label) pairs in source
order: the first four labels equal their keyword, the keyword `room` yields
the label `accommodation`. -/
def tagVocab : List (List Char × List Char) :=
  [("checkout".toList, "checkout".toList),
   ("payment".toList, "payment".toList),
   ("ticket".toList, "ticket".toList),
   ("event".toList, "event".toList),
   ("room".toList, "accommodation".toList)]


/-! ### PII Scanner (`detectAndBlurPII`, lines 306-326)

The four JavaScript regular expressions of the scanner use only literal
characters, character classes, the quantifiers `{n}`, `{2,}`, `+`, `?`, and the
word-boundary assertion.  They are embedded as sequences of
regex items (`RItem`) with an executable backtracking matcher whose boolean
result coincides with `RegExp.prototype.test` (existence of a match). -/

/-- One regex item: a single character from a class, an optional character
from a class (`?`), a greedy unbounded repetition (`*`, used to expand `{n,}`
and `+`), or a word-boundary assertion. -/
inductive RItem where
  | cls (p : Char → Bool)
  | clsOpt (p : Char → Bool)
  | star (p : Char → Bool)
  | wb

/-- JavaScript word character, the class matched by a regex word escape:
ASCII letters, digits and underscore. -/
def isWordChar (c : Char) : Bool := c.isAlphanum || c == '_'

def isWordOpt : Option Char → Bool
  | none => false
  | some c => isWordChar c

/-- Word-boundary test between the character before the position (none at the
ends of the string) and the character after it. -/
def wordBoundary (prev next : Option Char) : Bool :=
  isWordOpt prev != isWordOpt next

/-- All ways for a greedy class repetition to consume a prefix of `s`,
as (character before the rest, rest) pairs. -/
def starSplits (p : Char → Bool) (prev : Option Char) (s : List Char) :
    List (Option Char × List Char) :=
  (prev, s) ::
    match s with
    | [] => []
    | c :: t => if p c then starSplits p (some c) t else []

/-- Backtracking matcher: `matchList items prev s` is true when `items` can
match some prefix of `s`, where `prev` is the character immediately before
`s` in the whole subject (for word boundaries). -/
def matchList : List RItem → Option Char → List Char → Bool
  | [], _, _ => true
  | .wb :: rest, prev, s => wordBoundary prev s.head? && matchList rest prev s
  | .cls p :: rest, _, s =>
    match s with
    | [] => false
    | c :: t => p c && matchList rest (some c) t
  | .clsOpt p :: rest, prev, s =>
    (match s with
     | [] => false
     | c :: t => p c && matchList rest (some c) t) || matchList rest prev s
  | .star p :: rest, prev, s =>
    (starSplits p prev s).any fun q => matchList rest q.1 q.2

/-- `rtestAux items prev s`: the pattern matches starting at some position of
`s`; `prev` is the character just before `s`. -/
def rtestAux (items : List RItem) (prev : Option Char) (s : List Char) : Bool :=
  matchList items prev s ||
    match s with
    | [] => false
    | c :: t => rtestAux items (some c) t

/-- The last character of `l`, or `p0` when `l` is empty: the character
preceding the remaining subject after consuming `l`. -/
def lastOpt (p0 : Option Char) (l : List Char) : Option Char :=
  match l with
  | [] => p0
  | c :: t => lastOpt (some c) t

/-- Model of `RegExp.prototype.test`: does the pattern match anywhere? -/
def rtest (items : List RItem) (s : List Char) : Bool := rtestAux items none s

/-- Digit class, the class matched by a regex digit escape. -/
def isDigitB (c : Char) : Bool := c.isDigit

/-- JavaScript whitespace class (the common ASCII members). -/
def isSpaceJS (c : Char) : Bool :=
  c == ' ' || c == '\t' || c == '\n' || c == '\r' || c == '\x0b' || c == '\x0c'

/-- The class `[\x5cs-]` of the card / phone patterns: whitespace or dash. -/
def spaceDash (c : Char) : Bool := isSpaceJS c || c == '-'

/-- The email local-part class `[A-Za-z0-9._%+-]`. -/
def localCls (c : Char) : Bool :=
  c.isAlphanum || c == '.' || c == '_' || c == '%' || c == '+' || c == '-'

/-- The email domain class `[A-Za-z0-9.-]`. -/
def domainCls (c : Char) : Bool := c.isAlphanum || c == '.' || c == '-'

/-- The email top-level-domain class `[A-Z|a-z]`: note it literally contains
the bar character, exactly as in the source. -/
def tldCls (c : Char) : Bool := c.isAlpha || c == '|'

/-- `p{n}`: exactly `n` characters of class `p`. -/
def clsN (p : Char → Bool) (n : Nat) : List RItem := List.replicate n (.cls p)

/-- `p+`: one character of class `p` and then a greedy repetition. -/
def plusCls (p : Char → Bool) : List RItem := [.cls p, .star p]

/-- `p{2,}`: two characters of class `p` and then a greedy repetition. -/
def atLeast2 (p : Char → Bool) : List RItem := [.cls p, .cls p, .star p]

/-- The SSN pattern (three digits, dash, two digits, dash, four digits,
between word boundaries). -/
def ssnRe : List RItem :=
  [.wb] ++ clsN isDigitB 3 ++ [.cls (fun c => c == '-')] ++ clsN isDigitB 2 ++
    [.cls (fun c => c == '-')] ++ clsN isDigitB 4 ++ [.wb]

/-- The credit-card pattern (four groups of four digits, optionally separated
by whitespace or dash, between word boundaries). -/
def cardRe : List RItem :=
  [.wb] ++ clsN isDigitB 4 ++ [.clsOpt spaceDash] ++ clsN isDigitB 4 ++
    [.clsOpt spaceDash] ++ clsN isDigitB 4 ++ [.clsOpt spaceDash] ++
    clsN isDigitB 4 ++ [.wb]

/-- The email pattern: local part, at sign, domain, dot, two-or-more-letter
top-level domain, between word boundaries. -/
def emailRe : List RItem :=
  [.wb] ++ plusCls localCls ++ [.cls (fun c => c == '@')] ++
    plusCls domainCls ++ [.cls (fun c => c == '.')] ++ atLeast2 tldCls ++ [.wb]

/-- The phone pattern (three digits, optional separator, three digits,
optional separator, four digits, between word boundaries). -/
def phoneRe : List RItem :=
  [.wb] ++ clsN isDigitB 3 ++ [.clsOpt spaceDash] ++ clsN isDigitB 3 ++
    [.clsOpt spaceDash] ++ clsN isDigitB 4 ++ [.wb]

/-- The scanner's fixed pattern list (`piiPatterns`, lines 311-316). -/
def piiPatterns : List (List RItem) := [ssnRe, cardRe, emailRe, phoneRe]

/-- The text-level core of `detectAndBlurPII` (lines 311-325): true exactly
when some pattern of the fixed list matches the text.  The returned value is
what the worker stores as the `piiBlur` flag. -/
def hasPII (text : List Char) : Bool :=
  piiPatterns.any fun re => rtest re text

/-! ### Persistent store model -/

/-- MonitoredPage status lifecycle; the source stores the strings
`pending`, `processing`, `captured`, `failed`. -/
inductive Status where
  | pending
  | processing
  | captured
  | failed
deriving DecidableEq, Repr

/-- One `screen` row (MonitoredPage): the fields the worker reads or writes. -/
structure ScreenRow where
  status : Status
  ocrText : Option (List Char)
  aiTags : List (List Char)
  piiBlur : Bool
  lastSeenAt : Option Nat
deriving DecidableEq, Repr

/-- One `capture` row (CaptureRecord), as created by `prisma.capture.create`
(lines 129-139). -/
structure CaptureRow where
  screenId : String
  etag : Option String
  lastModified : Option String
  domHash : Nat
  imgHash : Nat
  diffScore : ℚ
  changed : Bool
deriving DecidableEq, Repr

/-- One `screenFile` row (ArtifactSet), as created by
`prisma.screenFile.create` (lines 117-126). -/
structure ScreenFileRow where
  screenId : String
  webpUrl : String
  pngUrl : String
  thumbUrl : String
  sha256 : Nat
  imgHash : Nat
deriving DecidableEq, Repr

/-- The persistent store.  `screens` is keyed by screen id (ids unique);
`captures` and `screenFiles` are kept newest-first, so creation prepends and
`findFirst(orderBy createdAt desc)` is the head of the filtered list. -/
structure DB where
  screens : List (String × ScreenRow)
  captures : List CaptureRow
  screenFiles : List ScreenFileRow
deriving DecidableEq, Repr

/-- `prisma.screen.update(where id, data status)`: update the status of the
row with the given id. -/
def setStatus (db : DB) (sid : String) (st : Status) : DB :=
  { db with
    screens := db.screens.map fun p =>
      if p.1 == sid then (p.1, { p.2 with status := st }) else p }

/-- `prisma.screen.update` at the end of a successful job (lines 142-151):
status `captured`, cached OCR text, tags, PII flag, last-seen timestamp. -/
def updateScreenCaptured (db : DB) (sid : String) (ocrText : Option (List Char))
    (aiTags : List (List Char)) (piiBlur : Bool) (now : Nat) : DB :=
  { db with
    screens := db.screens.map fun p =>
      if p.1 == sid then
        let r := { p.2 with
          status := Status.captured,
          ocrText := ocrText,
          aiTags := aiTags,
          piiBlur := piiBlur,
          lastSeenAt := some now }
        (p.1, r)
      else p }

/-- Does a screen row with this id exist? -/
def screenExists (db : DB) (sid : String) : Bool :=
  db.screens.any fun p => p.1 == sid

/-- The status of the screen row with this id, if it exists. -/
def statusOf (db : DB) (sid : String) : Option Status :=
  (db.screens.find? fun p => p.1 == sid).map fun p => p.2.status

/-! ### Change Detector (`calculateDiffScore`, lines 371-384) -/

/-- The literal score `0.5` of line 383, given as a raw rational so concrete
runs evaluate by `decide`; `halfScore_eq` below shows it equals `1 / 2`. -/
def halfScore : ℚ := ⟨1, 2, by norm_num, by norm_num⟩

/-- `calculateDiffScore`: look up the most recent prior capture for the
screen; no prior capture gives 0, otherwise 0 for an identical image hash and
0.5 for a different one. -/
def calculateDiffScore (db : DB) (screenId : String) (newImgHash : Nat) : ℚ :=
  match (db.captures.filter fun c => c.screenId == screenId).head? with
  | none => 0
  | some previousCapture =>
    if previousCapture.imgHash == newImgHash then 0 else halfScore

/-! ### Capture Orchestrator (`processJob`, lines 51-174) -/

/-- The immutable description of one capture job (`CaptureJob`,
lines 21-31). -/
inductive Breakpoint where
  | desktop
  | mobile
deriving DecidableEq, Repr

structure CaptureJob where
  id : String
  url : List Char
  breakpoint : Breakpoint
  width : Nat
  height : Nat
  withContent : Bool
  priority : Nat
  siteId : String
  screenId : String
deriving Repr

/-- The fallible operations of `processJob`, in execution order.  Cookie
dismissal, scrolling and the header reads swallow their own errors in the
source and therefore do not appear.  `extractText` only executes when the job
requests content. -/
inductive Stage where
  | updateProcessing
  | newPage
  | setViewport
  | goto
  | waitSettle
  | screenshot
  | domHash
  | processImage
  | extractText
  | detectPII
  | uploadS3
  | screenFileCreate
  | captureCreate
  | screenUpdateCaptured
deriving DecidableEq, Repr

/-- The behaviour of the external collaborators during one job: the data the
browser, the OCR engine and storage return, the wall clock, and the first
stage (if any) at which a collaborator call or database write throws.  The
OCR engine (`extractText`) is modelled as a deterministic function of the
image bytes. -/
structure Env where
  firstFail : Option Stage
  screenshot : List Nat
  domContent : List Char
  etag : Option String
  lastModified : Option String
  ocr : List Nat → List Char
  cdnUrl : String
  now : Nat

/-- Does the environment make this stage throw? -/
def Env.fails (env : Env) (s : Stage) : Bool :=
  decide (env.firstFail = some s)

/-- The three public URIs computed by `uploadToS3` (lines 328-369):
`CDN_URL` followed by the object key under
`screenshots/siteId/screenId/`. -/
structure Urls where
  webp : String
  png : String
  thumb : String
deriving DecidableEq, Repr

def uploadToS3 (env : Env) (job : CaptureJob) : Urls :=
  let prefixKey := env.cdnUrl ++ "/screenshots/" ++ job.siteId ++ "/" ++
    job.screenId ++ "/"
  { webp := prefixKey ++ "original.webp",
    png := prefixKey ++ "original.png",
    thumb := prefixKey ++ "thumb.webp" }

/-- The `screenFile` row created on the success path (lines 117-126): the
three rendition URIs plus the sha256 and md5 hashes of the raw screenshot
computed by `processImage` (lines 256-258). -/
def mkScreenFile (env : Env) (job : CaptureJob) : ScreenFileRow :=
  { screenId := job.screenId,
    webpUrl := (uploadToS3 env job).webp,
    pngUrl := (uploadToS3 env job).png,
    thumbUrl := (uploadToS3 env job).thumb,
    sha256 := sha256Hex env.screenshot,
    imgHash := md5Hex env.screenshot }

/-- The `capture` row created on the success path (lines 129-139).  The diff
score is computed against the database as it stands when the row is created
(after the `screenFile` write); `changed` is the literal `false` of line
137. -/
def mkCapture (env : Env) (dbAtCreate : DB) (job : CaptureJob) : CaptureRow :=
  { screenId := job.screenId,
    etag := env.etag,
    lastModified := env.lastModified,
    domHash := domHashOf env.domContent,
    imgHash := md5Hex env.screenshot,
    diffScore := calculateDiffScore dbAtCreate job.screenId
      (md5Hex env.screenshot),
    changed := false }

/-- The OCR text persisted for the job: only computed when the job requests
content (lines 102-105). -/
def ocrTextOf (env : Env) (job : CaptureJob) : Option (List Char) :=
  if job.withContent then some (env.ocr env.screenshot) else none

/-- The outcome of one `processJob` call: the final database, whether the
call returned normally (`ok = true`) or threw, and how many render sessions
(browser pages) were acquired and released during the call. -/
structure JobOutcome where
  db : DB
  ok : Bool
  opened : Nat
  closed : Nat

/-- The common failure exit (lines 163-173): the catch handler sets the
screen status to `failed` and re-throws.  `page.close()` is only reached on
the success path (line 153), so a failing job never releases its page. -/
def failOut (db : DB) (sid : String) (opened : Nat) : JobOutcome :=
  { db := setStatus db sid .failed, ok := false, opened := opened, closed := 0 }

/-- `processJob` (lines 51-174).  The try block sets the screen to
`processing`, drives the collaborators in source order, writes the
`screenFile` row, then the `capture` row, then the final screen update, and
closes the page; any throw lands in the catch handler (`failOut`).  The
best-effort steps (cookie banners, scrolling, header reads) swallow errors
and so have no failure branch. -/
def processJob (env : Env) (db0 : DB) (job : CaptureJob) : JobOutcome :=
  if env.fails .updateProcessing then failOut db0 job.screenId 0 else
  let db1 := setStatus db0 job.screenId .processing
  if env.fails .newPage then failOut db1 job.screenId 0 else
  if env.fails .setViewport then failOut db1 job.screenId 1 else
  if env.fails .goto then failOut db1 job.screenId 1 else
  if env.fails .waitSettle then failOut db1 job.screenId 1 else
  if env.fails .screenshot then failOut db1 job.screenId 1 else
  if env.fails .domHash then failOut db1 job.screenId 1 else
  if env.fails .processImage then failOut db1 job.screenId 1 else
  if job.withContent && env.fails .extractText then failOut db1 job.screenId 1 else
  if env.fails .detectPII then failOut db1 job.screenId 1 else
  if env.fails .uploadS3 then failOut db1 job.screenId 1 else
  if env.fails .screenFileCreate then failOut db1 job.screenId 1 else
  let db2 := { db1 with screenFiles := mkScreenFile env job :: db1.screenFiles }
  if env.fails .captureCreate then failOut db2 job.screenId 1 else
  let db3 := { db2 with captures := mkCapture env db2 job :: db2.captures }
  if env.fails .screenUpdateCaptured then failOut db3 job.screenId 1 else
  { db := updateScreenCaptured db3 job.screenId (ocrTextOf env job)
      (generateAITags job.url (ocrTextOf env job))
      (hasPII (env.ocr env.screenshot)) env.now,
    ok := true, opened := 1, closed := 1 }

/-- The database after the `screenFile` write of a successful job: status
`processing` and the new artifact row prepended.  This is the state against
which `calculateDiffScore` runs when the `capture` row is created. -/
def dbAfterFile (env : Env) (db0 : DB) (job : CaptureJob) : DB :=
  let db1 := setStatus db0 job.screenId Status.processing
  { db1 with screenFiles := mkScreenFile env job :: db1.screenFiles }

/-- The net outcome of the success path of `processJob`, used to state the
shape lemmas below. -/
def successOutcome (env : Env) (db0 : DB) (job : CaptureJob) : JobOutcome :=
  let db2 := dbAfterFile env db0 job
  let db3 := { db2 with captures := mkCapture env db2 job :: db2.captures }
  { db := updateScreenCaptured db3 job.screenId (ocrTextOf env job)
      (generateAITags job.url (ocrTextOf env job))
      (hasPII (env.ocr env.screenshot)) env.now,
    ok := true, opened := 1, closed := 1 }

/-- The stages whose failure happens before any row is persisted: everything
up to and including the `screenFile` write itself (a throwing
`prisma.screenFile.create` writes nothing). -/
def prePersistStages : List Stage :=
  [Stage.updateProcessing, Stage.newPage, Stage.setViewport, Stage.goto,
   Stage.waitSettle, Stage.screenshot, Stage.domHash, Stage.processImage,
   Stage.extractText, Stage.detectPII, Stage.uploadS3, Stage.screenFileCreate]

/-- The database after both writes of a successful job (the state seen by a
failure of the final screen update). -/
def dbAfterCapture (env : Env) (db0 : DB) (job : CaptureJob) : DB :=
  let db2 := dbAfterFile env db0 job
  { db2 with captures := mkCapture env db2 job :: db2.captures }

/-- Replace every stored DOM hash by an arbitrary function of it (used to
show the Change Detector never reads DOM hashes). -/
def mapDomHash (db : DB) (f : Nat → Nat) : DB :=
  { db with captures := db.captures.map fun c => { c with domHash := f c.domHash } }

/-! ### Concrete fixtures for witnesses and counterexamples -/

def screenRow0 : ScreenRow :=
  { status := Status.pending, ocrText := none, aiTags := [], piiBlur := false,
    lastSeenAt := none }

/-- A store holding one never-captured screen `s1`. -/
def dbEmptyS1 : DB :=
  { screens := [("s1", screenRow0)], captures := [], screenFiles := [] }

/-- A prior capture of `s1` whose image hash differs from the hash of the
fixture screenshot `[1, 2, 3]`. -/
def capPrior : CaptureRow :=
  { screenId := "s1", etag := none, lastModified := none,
    domHash := domHashOf ("<p>hi</p>".toList), imgHash := md5Hex [7],
    diffScore := 0, changed := false }

/-- A store holding screen `s1` with one prior capture. -/
def dbPrior : DB :=
  { screens := [("s1", screenRow0)], captures := [capPrior], screenFiles := [] }

def jobDesk : CaptureJob :=
  { id := "job-1", url := "https://www.apple.com/store".toList,
    breakpoint := Breakpoint.desktop, width := 1440, height := 900,
    withContent := false, priority := 5, siteId := "site-1", screenId := "s1" }

/-- The same screen captured at mobile pixel dimensions. -/
def jobMobi : CaptureJob :=
  { jobDesk with
    id := "job-2",
    breakpoint := Breakpoint.mobile,
    width := 375,
    height := 667 }

/-- Collaborators all succeed; screenshot bytes `[1, 2, 3]`. -/
def envOk : Env :=
  { firstFail := none, screenshot := [1, 2, 3],
    domContent := "<p>hi</p>".toList, etag := none, lastModified := none,
    ocr := fun _ => [], cdnUrl := "https://cdn.example", now := 5 }

/-- Same DOM as `envOk` but different screenshot bytes. -/
def envOk2 : Env := { envOk with screenshot := [9, 9, 9] }

/-- Same screenshot bytes as `envOk` but a different DOM serialization. -/
def envOkDom2 : Env := { envOk with domContent := "<q>bye</q>".toList }

def envFailGoto : Env := { envOk with firstFail := some Stage.goto }

def envFailCaptureCreate : Env :=
  { envOk with firstFail := some Stage.captureCreate }

def envFailUpload : Env := { envOk with firstFail := some Stage.uploadS3 }

/-! ### Helper lemmas -/

theorem isPrefixOf_eq_true_iff (l m : List Char) :
    l.isPrefixOf m = true ↔ ∃ t, l ++ t = m := by
  induction l generalizing m with
  | nil => simp [List.isPrefixOf]
  | cons a l ih =>
    cases m with
    | nil => simp [List.isPrefixOf]
    | cons b m =>
      simp only [List.isPrefixOf, Bool.and_eq_true, beq_iff_eq, ih]
      constructor
      · rintro ⟨rfl, t, rfl⟩
        exact ⟨t, rfl⟩
      · rintro ⟨t, h⟩
        cases h
        exact ⟨rfl, t, rfl⟩

theorem containsSub_eq_true_iff (needle hay : List Char) :
    containsSub needle hay = true ↔ ∃ u v, u ++ needle ++ v = hay := by
  induction hay with
  | nil =>
    cases needle <;> simp [containsSub, List.isEmpty]
  | cons c t ih =>
    simp only [containsSub, Bool.or_eq_true, isPrefixOf_eq_true_iff, ih]
    constructor
    · rintro (⟨v, h⟩ | ⟨u, v, h⟩)
      · exact ⟨[], v, by simpa using h⟩
      · exact ⟨c :: u, v, by simp [← h]⟩
    · rintro ⟨u, v, h⟩
      cases u with
      | nil => exact Or.inl ⟨v, by simpa using h⟩
      | cons a u =>
        right
        refine ⟨u, v, ?_⟩
        have h' : a :: (u ++ needle ++ v) = c :: t := by simpa using h
        simpa using (List.cons_eq_cons.mp h').2

theorem containsSub_append_left (needle u v : List Char)
    (h : containsSub needle v = true) : containsSub needle (u ++ v) = true := by
  rcases (containsSub_eq_true_iff needle v).1 h with ⟨a, b, rfl⟩
  exact (containsSub_eq_true_iff _ _).2 ⟨u ++ a, b, by simp⟩

theorem containsSub_map (f : Char → Char) (needle hay : List Char)
    (h : containsSub needle hay = true) :
    containsSub (needle.map f) (hay.map f) = true := by
  rcases (containsSub_eq_true_iff needle hay).1 h with ⟨u, v, rfl⟩
  exact (containsSub_eq_true_iff _ _).2 ⟨u.map f, v.map f, by simp⟩

/-- `generateAITags` is the source-order filter of the vocabulary by the
case-insensitive URL-or-text occurrence test. -/
theorem generateAITags_eq_filter (url : List Char) (ocrText : Option (List Char)) :
    generateAITags url ocrText =
      (tagVocab.filter (fun p =>
        containsSub p.1 (lowerStr url) ||
          containsSub p.1 (lowerStr (ocrText.getD [])))).map (fun p => p.2) := by
  simp only [generateAITags, tagVocab, List.filter_cons, List.filter_nil,
    List.map_nil]
  split_ifs <;> rfl

theorem captures_setStatus (db : DB) (sid : String) (st : Status) :
    (setStatus db sid st).captures = db.captures := rfl

theorem screenFiles_setStatus (db : DB) (sid : String) (st : Status) :
    (setStatus db sid st).screenFiles = db.screenFiles := rfl

theorem captures_updateScreenCaptured (db : DB) (sid : String) (o : Option (List Char))
    (a : List (List Char)) (b : Bool) (n : Nat) :
    (updateScreenCaptured db sid o a b n).captures = db.captures := rfl

theorem screenFiles_updateScreenCaptured (db : DB) (sid : String) (o : Option (List Char))
    (a : List (List Char)) (b : Bool) (n : Nat) :
    (updateScreenCaptured db sid o a b n).screenFiles = db.screenFiles := rfl

theorem statusOf_mapUpdate (l : List (String × ScreenRow)) (sid : String)
    (g : ScreenRow → ScreenRow) (st : Status) (hg : ∀ r, (g r).status = st)
    (h : (l.any fun p => p.1 == sid) = true) :
    (((l.map fun p => if p.1 == sid then (p.1, g p.2) else p).find?
        fun p => p.1 == sid).map fun p => p.2.status) = some st := by
  induction l with
  | nil => simp at h
  | cons q t ih =>
    rw [List.any_cons] at h
    by_cases hq : (q.1 == sid) = true
    · simp [List.find?, hq, hg]
    · have h2 : (t.any fun p => p.1 == sid) = true := by simpa [hq] using h
      simpa [List.find?, hq] using ih h2

theorem statusOf_setStatus (db : DB) (sid : String) (st : Status)
    (h : screenExists db sid = true) :
    statusOf (setStatus db sid st) sid = some st := by
  have := statusOf_mapUpdate db.screens sid
    (fun r => { r with status := st }) st (fun r => rfl) h
  simpa [statusOf, setStatus] using this

theorem statusOf_updateScreenCaptured (db : DB) (sid : String)
    (o : Option (List Char)) (a : List (List Char)) (b : Bool) (n : Nat)
    (h : screenExists db sid = true) :
    statusOf (updateScreenCaptured db sid o a b n) sid = some Status.captured := by
  have := statusOf_mapUpdate db.screens sid
    (fun r => { r with
      status := Status.captured, ocrText := o, aiTags := a, piiBlur := b,
      lastSeenAt := some n }) Status.captured (fun r => rfl) h
  simpa [statusOf, updateScreenCaptured] using this

theorem screenExists_setStatus (db : DB) (sid sid2 : String) (st : Status) :
    screenExists (setStatus db sid2 st) sid = screenExists db sid := by
  simp only [screenExists, setStatus, List.any_map]
  congr 1
  funext p
  by_cases hq : p.1 == sid2 <;> simp [hq, Function.comp]


theorem processJob_ok_shape (env : Env) (db0 : DB) (job : CaptureJob)
    (h : (processJob env db0 job).ok = true) :
    processJob env db0 job = successOutcome env db0 job := by
  rcases hf : env.firstFail with _ | s
  · simp [processJob, Env.fails, hf, successOutcome, dbAfterFile]
  · cases s
    case extractText =>
      by_cases hw : job.withContent = true
      · simp [processJob, Env.fails, hf, hw, failOut] at h
      · simp [processJob, Env.fails, hf, hw, successOutcome, dbAfterFile]
    all_goals simp [processJob, Env.fails, hf, failOut] at h

theorem processJob_none (env : Env) (db0 : DB) (job : CaptureJob)
    (hf : env.firstFail = none) :
    processJob env db0 job = successOutcome env db0 job := by
  simp [processJob, Env.fails, hf, successOutcome, dbAfterFile]

theorem processJob_extractText_skip (env : Env) (db0 : DB) (job : CaptureJob)
    (hf : env.firstFail = some Stage.extractText) (hw : job.withContent = false) :
    processJob env db0 job = successOutcome env db0 job := by
  simp [processJob, Env.fails, hf, hw, successOutcome, dbAfterFile]

theorem processJob_fail_eq (env : Env) (db0 : DB) (job : CaptureJob) (s : Stage)
    (hf : env.firstFail = some s) (hs : s ∈ prePersistStages)
    (hx : s = Stage.extractText → job.withContent = true) :
    processJob env db0 job =
      failOut
        (if s = Stage.updateProcessing then db0
         else setStatus db0 job.screenId Status.processing) job.screenId
        (if s = Stage.updateProcessing ∨ s = Stage.newPage then 0 else 1) := by
  simp only [prePersistStages, List.mem_cons, List.not_mem_nil, or_false] at hs
  rcases hs with rfl|rfl|rfl|rfl|rfl|rfl|rfl|rfl|rfl|rfl|rfl|rfl <;>
    simp [processJob, Env.fails, hf, hx]

theorem processJob_fail_capCreate (env : Env) (db0 : DB) (job : CaptureJob)
    (hf : env.firstFail = some Stage.captureCreate) :
    processJob env db0 job = failOut (dbAfterFile env db0 job) job.screenId 1 := by
  simp [processJob, Env.fails, hf, dbAfterFile]

theorem processJob_fail_updCaptured (env : Env) (db0 : DB) (job : CaptureJob)
    (hf : env.firstFail = some Stage.screenUpdateCaptured) :
    processJob env db0 job = failOut (dbAfterCapture env db0 job) job.screenId 1 := by
  simp [processJob, Env.fails, hf, dbAfterCapture, dbAfterFile]

theorem processJob_status_final (env : Env) (db0 : DB) (job : CaptureJob)
    (h : screenExists db0 job.screenId = true) :
    statusOf (processJob env db0 job).db job.screenId = some Status.failed ∨
      statusOf (processJob env db0 job).db job.screenId = some Status.captured := by
  have hx : screenExists (setStatus db0 job.screenId Status.processing)
      job.screenId = true := by
    rw [screenExists_setStatus]; exact h
  rcases hf : env.firstFail with _ | s
  · refine Or.inr ?_
    rw [processJob_none env db0 job hf]
    exact statusOf_updateScreenCaptured _ _ _ _ _ _ hx
  · cases s
    case extractText =>
      by_cases hw : job.withContent = true
      · refine Or.inl ?_
        rw [processJob_fail_eq env db0 job _ hf (by decide) (fun _ => hw)]
        exact statusOf_setStatus _ _ _ hx
      · refine Or.inr ?_
        rw [processJob_extractText_skip env db0 job hf (by simpa using hw)]
        exact statusOf_updateScreenCaptured _ _ _ _ _ _ hx
    case captureCreate =>
      refine Or.inl ?_
      rw [processJob_fail_capCreate env db0 job hf]
      exact statusOf_setStatus _ _ _ hx
    case screenUpdateCaptured =>
      refine Or.inl ?_
      rw [processJob_fail_updCaptured env db0 job hf]
      exact statusOf_setStatus _ _ _ hx
    all_goals
      refine Or.inl ?_
      rw [processJob_fail_eq env db0 job _ hf (by decide)
        (fun hc => absurd hc (by decide))]
      first
        | exact statusOf_setStatus _ _ _ h
        | exact statusOf_setStatus _ _ _ hx

theorem processJob_captures_cases (env : Env) (db0 : DB) (job : CaptureJob) :
    (processJob env db0 job).db.captures = db0.captures ∨
      (processJob env db0 job).db.captures =
        mkCapture env (dbAfterFile env db0 job) job :: db0.captures := by
  rcases hf : env.firstFail with _ | s
  · refine Or.inr ?_
    rw [processJob_none env db0 job hf]
    rfl
  · cases s
    case extractText =>
      by_cases hw : job.withContent = true
      · refine Or.inl ?_
        rw [processJob_fail_eq env db0 job _ hf (by decide) (fun _ => hw)]
        rfl
      · refine Or.inr ?_
        rw [processJob_extractText_skip env db0 job hf (by simpa using hw)]
        rfl
    case captureCreate =>
      refine Or.inl ?_
      rw [processJob_fail_capCreate env db0 job hf]
      rfl
    case screenUpdateCaptured =>
      refine Or.inr ?_
      rw [processJob_fail_updCaptured env db0 job hf]
      rfl
    all_goals
      refine Or.inl ?_
      rw [processJob_fail_eq env db0 job _ hf (by decide)
        (fun hc => absurd hc (by decide))]
      rfl

theorem halfScore_eq : halfScore = 1 / 2 := by
  rw [halfScore]
  rw [Rat.mk'_eq_divInt, Rat.divInt_eq_div]
  norm_num

theorem calculateDiffScore_cases (db : DB) (sid : String) (hsh : Nat) :
    calculateDiffScore db sid hsh = 0 ∨ calculateDiffScore db sid hsh = halfScore := by
  unfold calculateDiffScore
  cases (db.captures.filter fun c => c.screenId == sid).head? with
  | none => exact Or.inl rfl
  | some p =>
    by_cases he : (p.imgHash == hsh) = true
    · simp [he]
    · simp [he]

theorem calculateDiffScore_no_prior (db : DB) (sid : String) (hsh : Nat)
    (hc : db.captures.filter (fun c => c.screenId == sid) = []) :
    calculateDiffScore db sid hsh = 0 := by
  simp [calculateDiffScore, hc]

theorem calculateDiffScore_prior (db : DB) (sid : String) (hsh : Nat)
    (p : CaptureRow)
    (hp : (db.captures.filter fun c => c.screenId == sid).head? = some p) :
    calculateDiffScore db sid hsh =
      if p.imgHash == hsh then 0 else halfScore := by
  simp [calculateDiffScore, hp]

theorem calculateDiffScore_mapDomHash (db : DB) (f : Nat → Nat) (sid : String)
    (hsh : Nat) :
    calculateDiffScore (mapDomHash db f) sid hsh =
      calculateDiffScore db sid hsh := by
  unfold calculateDiffScore mapDomHash
  simp only [List.filter_map, List.head?_map]
  have hcomp : ((fun c : CaptureRow => c.screenId == sid) ∘
      fun c : CaptureRow => { c with domHash := f c.domHash }) =
      fun c : CaptureRow => c.screenId == sid := rfl
  rw [hcomp]
  cases (db.captures.filter fun c => c.screenId == sid).head? <;> rfl

theorem rtestAux_of_matchList (items : List RItem) (p0 : Option Char)
    (pre s : List Char) (h : matchList items (lastOpt p0 pre) s = true) :
    rtestAux items p0 (pre ++ s) = true := by
  induction pre generalizing p0 with
  | nil =>
    have h2 : matchList items p0 s = true := h
    rw [List.nil_append, rtestAux.eq_def, h2]
    rfl
  | cons c t ih =>
    have h2 : rtestAux items (some c) (t ++ s) = true := ih (some c) h
    rw [List.cons_append, rtestAux.eq_def]
    simp [h2]

theorem matchList_wb_step (rest : List RItem) (prev : Option Char)
    (s : List Char) (hb : wordBoundary prev s.head? = true)
    (h : matchList rest prev s = true) :
    matchList (RItem.wb :: rest) prev s = true := by
  simp [matchList, hb, h]

theorem matchList_cls_step (p : Char → Bool) (rest : List RItem)
    (prev : Option Char) (c : Char) (s : List Char) (hc : p c = true)
    (h : matchList rest (some c) s = true) :
    matchList (RItem.cls p :: rest) prev (c :: s) = true := by
  simp [matchList, hc, h]

theorem matchList_star_run (p : Char → Bool) (rest : List RItem)
    (prev : Option Char) (run s : List Char)
    (hrun : ∀ c ∈ run, p c = true)
    (h : matchList rest (lastOpt prev run) s = true) :
    matchList (RItem.star p :: rest) prev (run ++ s) = true := by
  induction run generalizing prev with
  | nil =>
    have h2 : matchList rest prev s = true := h
    rw [List.nil_append]
    show (starSplits p prev s).any (fun q => matchList rest q.1 q.2) = true
    refine List.any_eq_true.mpr ⟨(prev, s), ?_, h2⟩
    rw [starSplits.eq_def]
    exact List.mem_cons_self _ _
  | cons c t ih =>
    have hc : p c = true := hrun c (List.mem_cons_self c t)
    have ht : ∀ x ∈ t, p x = true := fun x hx =>
      hrun x (List.mem_cons_of_mem c hx)
    have ih2 : matchList (RItem.star p :: rest) (some c) (t ++ s) = true :=
      ih (some c) ht h
    have ih3 : (starSplits p (some c) (t ++ s)).any
        (fun q => matchList rest q.1 q.2) = true := ih2
    obtain ⟨q, hqmem, hq⟩ := List.any_eq_true.mp ih3
    rw [List.cons_append]
    show (starSplits p prev (c :: (t ++ s))).any
        (fun q => matchList rest q.1 q.2) = true
    refine List.any_eq_true.mpr ⟨q, ?_, hq⟩
    rw [starSplits.eq_def]
    simp only [hc, List.mem_cons, if_true]
    exact Or.inr hqmem

theorem isWordOpt_lastOpt_alpha (c0 : Char) (l : List Char)
    (hc : c0.isAlpha = true) (hl : ∀ x ∈ l, x.isAlpha = true) :
    isWordOpt (lastOpt (some c0) l) = true := by
  induction l generalizing c0 with
  | nil => simp [lastOpt, isWordOpt, isWordChar, Char.isAlphanum, hc]
  | cons d t ih =>
    exact ih d (hl d (List.mem_cons_self d t))
      (fun x hx => hl x (List.mem_cons_of_mem d hx))

theorem matchList_email (p0 : Option Char) (c1 d1 t1 t2 : Char)
    (loc dom trest post : List Char)
    (hp0 : isWordOpt p0 = false)
    (hc1 : c1.isAlphanum = true)
    (hloc : ∀ c ∈ loc, localCls c = true)
    (hd1 : domainCls d1 = true)
    (hdom : ∀ c ∈ dom, domainCls c = true)
    (ht1 : t1.isAlpha = true) (ht2 : t2.isAlpha = true)
    (htr : ∀ c ∈ trest, c.isAlpha = true)
    (hpost : isWordOpt post.head? = false) :
    matchList emailRe p0
      (c1 :: (loc ++ '@' :: d1 ::
        (dom ++ '.' :: t1 :: t2 :: (trest ++ post)))) = true := by
  have e1 : emailRe = RItem.wb :: RItem.cls localCls :: RItem.star localCls ::
      RItem.cls (fun c => c == '@') :: RItem.cls domainCls ::
      RItem.star domainCls :: RItem.cls (fun c => c == '.') ::
      RItem.cls tldCls :: RItem.cls tldCls :: RItem.star tldCls ::
      RItem.wb :: [] := rfl
  rw [e1]
  apply matchList_wb_step
  · have hw1 : isWordOpt (some c1) = true := by
      simp [isWordOpt, isWordChar, hc1]
    simp [wordBoundary, hp0, hw1]
  apply matchList_cls_step _ _ _ _ _ (by simp [localCls, hc1])
  apply matchList_star_run _ _ _ _ _ hloc
  apply matchList_cls_step _ _ _ _ _ (by decide)
  apply matchList_cls_step _ _ _ _ _ hd1
  apply matchList_star_run _ _ _ _ _ hdom
  apply matchList_cls_step _ _ _ _ _ (by decide)
  apply matchList_cls_step _ _ _ _ _ (by simp [tldCls, ht1])
  apply matchList_cls_step _ _ _ _ _ (by simp [tldCls, ht2])
  apply matchList_star_run _ _ _ _ _
    (fun c hc => by simp [tldCls, htr c hc])
  apply matchList_wb_step
  · have hw : isWordOpt (lastOpt (some t2) trest) = true :=
      isWordOpt_lastOpt_alpha t2 trest ht2 htr
    simp [wordBoundary, hw, hpost]
  rfl

theorem hasPII_of_email (pre loc dom trest post : List Char)
    (c1 d1 t1 t2 : Char)
    (hpre : isWordOpt (lastOpt none pre) = false)
    (hc1 : c1.isAlphanum = true)
    (hloc : ∀ c ∈ loc, localCls c = true)
    (hd1 : domainCls d1 = true)
    (hdom : ∀ c ∈ dom, domainCls c = true)
    (ht1 : t1.isAlpha = true) (ht2 : t2.isAlpha = true)
    (htr : ∀ c ∈ trest, c.isAlpha = true)
    (hpost : isWordOpt post.head? = false) :
    hasPII (pre ++ c1 :: (loc ++ '@' :: d1 ::
      (dom ++ '.' :: t1 :: t2 :: (trest ++ post)))) = true := by
  have hm := matchList_email (lastOpt none pre) c1 d1 t1 t2 loc dom trest post
    hpre hc1 hloc hd1 hdom ht1 ht2 htr hpost
  have hr : rtest emailRe (pre ++ c1 :: (loc ++ '@' :: d1 ::
      (dom ++ '.' :: t1 :: t2 :: (trest ++ post)))) = true :=
    rtestAux_of_matchList emailRe none pre _ hm
  simp [hasPII, piiPatterns, hr]

theorem generateAITags_nodup (url : List Char) (ocrText : Option (List Char)) :
    (generateAITags url ocrText).Nodup := by
  rw [generateAITags_eq_filter]
  exact List.Nodup.sublist ((List.filter_sublist _).map _) (by decide)

theorem generateAITags_mem_iff (url : List Char) (ocrText : Option (List Char))
    (kw lbl : List Char) (hv : (kw, lbl) ∈ tagVocab) :
    lbl ∈ generateAITags url ocrText ↔
      (containsSub kw (lowerStr url) ||
        containsSub kw (lowerStr (ocrText.getD []))) = true := by
  rw [generateAITags_eq_filter]
  constructor
  · intro hm
    obtain ⟨p, hp, hpe⟩ := List.mem_map.mp hm
    obtain ⟨hpv, hpc⟩ := List.mem_filter.mp hp
    have huniq : ∀ a ∈ tagVocab, ∀ b ∈ tagVocab, a.2 = b.2 → a = b := by decide
    have hpq : p = (kw, lbl) := huniq p hpv (kw, lbl) hv (by simpa using hpe)
    rw [hpq] at hpc
    simpa using hpc
  · intro hc
    refine List.mem_map.mpr ⟨(kw, lbl), List.mem_filter.mpr ⟨hv, ?_⟩, rfl⟩
    simpa using hc

theorem generateAITags_complete (url : List Char) (ocrText : Option (List Char))
    (t : List Char) (ht : t ∈ generateAITags url ocrText) :
    ∃ kw, (kw, t) ∈ tagVocab := by
  rw [generateAITags_eq_filter] at ht
  obtain ⟨p, hp, hpe⟩ := List.mem_map.mp ht
  rw [← hpe]
  exact ⟨p.1, (List.mem_filter.mp hp).1⟩

theorem generateAITags_checkout (url : List Char) (ocrText : Option (List Char))
    (h : containsSub ("/checkout".toList) url = true) :
    "checkout".toList ∈ generateAITags url ocrText := by
  have h1 : containsSub (("/checkout".toList).map Char.toLower)
      (lowerStr url) = true := containsSub_map Char.toLower _ _ h
  have h2 : ("/checkout".toList).map Char.toLower = '/' :: "checkout".toList := by
    decide
  rw [h2] at h1
  have h3 : containsSub ("checkout".toList) (lowerStr url) = true := by
    rcases (containsSub_eq_true_iff _ _).1 h1 with ⟨u, v, huv⟩
    refine (containsSub_eq_true_iff _ _).2 ⟨u ++ ['/'], v, ?_⟩
    rw [← huv]
    simp
  refine (generateAITags_mem_iff url ocrText ("checkout".toList)
    ("checkout".toList) (by decide)).2 ?_
  rw [h3]
  rfl

/-! ### Claims -/

/-- C1 (code bug): the spec says the persisted changed flag equals
`diffScore > threshold` with threshold 0.1, and the worker's own comment on
line 137 says the flag "will be calculated based on diff score"; but the
worker stores the literal `false`.  On a job whose prior capture has a
different image hash the persisted capture carries diff score 0.5 — above
the threshold — together with `changed = false`. -/
theorem claim_C1_bug :
    (((processJob envOk dbPrior jobDesk).db.captures.map
        fun c => (c.diffScore, c.changed)).head? = some (halfScore, false)) ∧
      (1 : ℚ) / 10 < halfScore := by
  constructor
  · decide
  · rw [halfScore_eq]
    norm_num

/-- C2 (amended): a job failing at any stage from the processing transition
up to and including the ArtifactSet write leaves the capture and artifact
tables untouched, re-raises (returns `ok = false`), and puts the page in
`failed`; and on no path whatsoever — success or failure — does `processJob`
leave the page in `processing`.  (As stated the claim is false: a failure
between the two persistence writes keeps the already-written ArtifactSet row,
see the counterexample.) -/
theorem claim_C2 :
    (∀ env db0 job s, env.firstFail = some s → s ∈ prePersistStages →
      (processJob env db0 job).ok = false →
      (processJob env db0 job).db.captures = db0.captures ∧
        (processJob env db0 job).db.screenFiles = db0.screenFiles ∧
        (screenExists db0 job.screenId = true →
          statusOf (processJob env db0 job).db job.screenId =
            some Status.failed)) ∧
    (∀ env db0 job, screenExists db0 job.screenId = true →
      statusOf (processJob env db0 job).db job.screenId ≠
        some Status.processing) := by
  constructor
  · intro env db0 job s hf hs hok
    have hx : s = Stage.extractText → job.withContent = true := by
      intro he
      subst he
      by_contra hw
      have hw2 : job.withContent = false := by simpa using hw
      rw [processJob_extractText_skip env db0 job hf hw2] at hok
      simp [successOutcome] at hok
    rw [processJob_fail_eq env db0 job s hf hs hx]
    by_cases hup : s = Stage.updateProcessing
    · rw [if_pos hup]
      exact ⟨rfl, rfl, fun hex => statusOf_setStatus _ _ _ hex⟩
    · rw [if_neg hup]
      refine ⟨rfl, rfl, fun hex => statusOf_setStatus _ _ _ ?_⟩
      rw [screenExists_setStatus]
      exact hex
  · intro env db0 job hex
    rcases processJob_status_final env db0 job hex with h1 | h1 <;> simp [h1]

/-- C2 witness: a job failing exactly at the storage upload leaves both
tables unchanged and the screen in `failed`. -/
theorem claim_C2_witness :
    (processJob envFailUpload dbEmptyS1 jobDesk).db.captures =
        dbEmptyS1.captures ∧
      (processJob envFailUpload dbEmptyS1 jobDesk).db.screenFiles =
        dbEmptyS1.screenFiles ∧
      statusOf (processJob envFailUpload dbEmptyS1 jobDesk).db "s1" =
        some Status.failed := by
  have h := claim_C2.1 envFailUpload dbEmptyS1 jobDesk Stage.uploadS3
    (by decide) (by decide) (by decide)
  exact ⟨h.1, h.2.1, h.2.2 (by decide)⟩

/-- C2 counterexample: a job whose `capture.create` write throws has already
written its `screenFile` row — the failing job created one ArtifactSet row,
not zero, refuting the claim as stated. -/
theorem claim_C2_cex :
    (processJob envFailCaptureCreate dbEmptyS1 jobDesk).ok = false ∧
      (processJob envFailCaptureCreate dbEmptyS1 jobDesk).db.screenFiles.length
        = 1 ∧
      (processJob envFailCaptureCreate dbEmptyS1 jobDesk).db.captures.length
        = 0 ∧
      dbEmptyS1.screenFiles.length = 0 := by
  decide

/-- C3 (code bug): `page.close()` sits on the success path only (line 153),
so a job that fails after `newPage` — here at navigation — acquires a render
session and never releases it; a successful job releases exactly once. -/
theorem claim_C3_bug :
    (processJob envFailGoto dbEmptyS1 jobDesk).ok = false ∧
      (processJob envFailGoto dbEmptyS1 jobDesk).opened = 1 ∧
      (processJob envFailGoto dbEmptyS1 jobDesk).closed = 0 ∧
      (processJob envOk dbEmptyS1 jobDesk).opened = 1 ∧
      (processJob envOk dbEmptyS1 jobDesk).closed = 1 := by
  decide

/-- C4: with no prior capture for the page, the change detector returns 0,
and a successful job persists its first capture with diff score 0 and
`changed = false`. -/
theorem claim_C4 : ∀ env db0 job,
    db0.captures.filter (fun c => c.screenId == job.screenId) = [] →
    calculateDiffScore db0 job.screenId (md5Hex env.screenshot) = 0 ∧
      ((processJob env db0 job).ok = true →
        ((processJob env db0 job).db.captures.head?).map
          (fun c => (c.diffScore, c.changed)) = some (0, false)) := by
  intro env db0 job hfil
  refine ⟨calculateDiffScore_no_prior _ _ _ hfil, fun hok => ?_⟩
  rw [processJob_ok_shape env db0 job hok]
  have h0 : calculateDiffScore (dbAfterFile env db0 job) job.screenId
      (md5Hex env.screenshot) = 0 := calculateDiffScore_no_prior _ _ _ hfil
  show some (calculateDiffScore (dbAfterFile env db0 job) job.screenId
      (md5Hex env.screenshot), false) = some (0, false)
  rw [h0]

/-- C4 witness: the first capture of the fixture screen is a baseline. -/
theorem claim_C4_witness :
    calculateDiffScore dbEmptyS1 "s1" (md5Hex [1, 2, 3]) = 0 ∧
      ((processJob envOk dbEmptyS1 jobDesk).db.captures.head?).map
        (fun c => (c.diffScore, c.changed)) = some (0, false) := by
  have h := claim_C4 envOk dbEmptyS1 jobDesk (by decide)
  exact ⟨h.1, h.2 (by decide)⟩

/-- C5: two consecutive successful captures of the same page with
byte-identical screenshots give the second capture diff score 0 and
`changed = false`, whatever the two DOM serializations were. -/
theorem claim_C5 : ∀ env1 env2 db0 job1 job2,
    job1.screenId = job2.screenId →
    env1.screenshot = env2.screenshot →
    (processJob env1 db0 job1).ok = true →
    (processJob env2 (processJob env1 db0 job1).db job2).ok = true →
    ((processJob env2 (processJob env1 db0 job1).db job2).db.captures.head?).map
      (fun c => (c.diffScore, c.changed)) = some (0, false) := by
  intro env1 env2 db0 job1 job2 hsid hshot h1 h2
  rw [processJob_ok_shape env2 _ job2 h2]
  show some (calculateDiffScore
      (dbAfterFile env2 (processJob env1 db0 job1).db job2) job2.screenId
      (md5Hex env2.screenshot), false) = some (0, false)
  have hcap : (dbAfterFile env2 (processJob env1 db0 job1).db job2).captures =
      mkCapture env1 (dbAfterFile env1 db0 job1) job1 :: db0.captures := by
    show (processJob env1 db0 job1).db.captures = _
    rw [processJob_ok_shape env1 db0 job1 h1]
    rfl
  have hpred : ((mkCapture env1 (dbAfterFile env1 db0 job1) job1).screenId ==
      job2.screenId) = true := by
    show (job1.screenId == job2.screenId) = true
    simp [hsid]
  have hhead : ((dbAfterFile env2 (processJob env1 db0 job1).db
      job2).captures.filter (fun c => c.screenId == job2.screenId)).head? =
      some (mkCapture env1 (dbAfterFile env1 db0 job1) job1) := by
    rw [hcap, List.filter_cons, if_pos hpred]
    rfl
  rw [calculateDiffScore_prior _ _ _ _ hhead]
  have himg : ((mkCapture env1 (dbAfterFile env1 db0 job1) job1).imgHash ==
      md5Hex env2.screenshot) = true := by
    show (md5Hex env1.screenshot == md5Hex env2.screenshot) = true
    rw [hshot]
    simp
  rw [if_pos himg]

/-- C5 witness: re-capturing with identical screenshot bytes but a different
DOM serialization yields diff score 0 and `changed = false`. -/
theorem claim_C5_witness :
    ((processJob envOkDom2 (processJob envOk dbEmptyS1 jobDesk).db
        jobDesk).db.captures.head?).map
      (fun c => (c.diffScore, c.changed)) = some (0, false) :=
  claim_C5 envOk envOkDom2 dbEmptyS1 jobDesk jobDesk rfl rfl
    (by decide) (by decide)

/-- C6 (amended): the change detector has no dimension-mismatch fallback.
Its result is invariant under arbitrary rewriting of every stored DOM hash
(it never reads them), and the whole of `processJob` is insensitive to the
job's pixel dimensions once the collaborator outputs are fixed — captures at
a new viewport are scored by exact image-hash comparison like any other, with
no distinct marker.  (As stated the claim is false, see the
counterexample.) -/
theorem claim_C6 :
    (∀ db f sid hsh,
      calculateDiffScore (mapDomHash db f) sid hsh =
        calculateDiffScore db sid hsh) ∧
    (∀ (env : Env) (db0 : DB) (job : CaptureJob) (w1 ht1 w2 ht2 : Nat),
      processJob env db0 { job with width := w1, height := ht1 } =
        processJob env db0 { job with width := w2, height := ht2 }) := by
  constructor
  · intro db f sid hsh
    exact calculateDiffScore_mapDomHash db f sid hsh
  · intro env db0 job w1 ht1 w2 ht2
    rfl

/-- C6 counterexample: a second capture at different pixel dimensions
(mobile 375x667 after desktop 1440x900) whose DOM hash is identical to the
prior capture's still gets diff score 0.5 from the image-hash comparison:
the detector did not fall back to DOM-hash inequality and marked nothing. -/
theorem claim_C6_cex :
    jobMobi.width ≠ jobDesk.width ∧
      (((processJob envOk2 (processJob envOk dbEmptyS1 jobDesk).db
          jobMobi).db.captures.map fun c => (c.domHash, c.diffScore)).head? =
        some (domHashOf ("<p>hi</p>".toList), halfScore)) ∧
      (((processJob envOk dbEmptyS1 jobDesk).db.captures.map
          fun c => c.domHash).head? = some (domHashOf ("<p>hi</p>".toList))) := by
  refine ⟨by decide, by decide, by decide⟩

/-- C7 (amended): a successful job creates exactly one new CaptureRecord and
one new ArtifactSet, and their stored image hashes agree; the two writes are
sequential, not atomic (see the counterexample for a job failing between
them). -/
theorem claim_C7 : ∀ env db0 job, (processJob env db0 job).ok = true →
    ∃ cap sf, (processJob env db0 job).db.captures = cap :: db0.captures ∧
      (processJob env db0 job).db.screenFiles = sf :: db0.screenFiles ∧
      cap.imgHash = sf.imgHash := by
  intro env db0 job hok
  rw [processJob_ok_shape env db0 job hok]
  exact ⟨mkCapture env (dbAfterFile env db0 job) job, mkScreenFile env job,
    rfl, rfl, rfl⟩

/-- C7 witness: on the fixture job the one new capture and the one new
artifact row store the same image hash. -/
theorem claim_C7_witness :
    ((processJob envOk dbEmptyS1 jobDesk).db.captures.map
        fun c => c.imgHash).head? =
      ((processJob envOk dbEmptyS1 jobDesk).db.screenFiles.map
        fun f => f.imgHash).head? := by
  obtain ⟨cap, sf, hc, hs, he⟩ := claim_C7 envOk dbEmptyS1 jobDesk (by decide)
  rw [hc, hs]
  simp [he]

/-- C7 counterexample: a job that fails between the ArtifactSet write and the
CaptureRecord write leaves the new ArtifactSet row visible with no matching
CaptureRecord — the two writes are not atomic. -/
theorem claim_C7_cex :
    (processJob envFailCaptureCreate dbPrior jobDesk).ok = false ∧
      (processJob envFailCaptureCreate dbPrior jobDesk).db.screenFiles.length
        = 1 ∧
      (processJob envFailCaptureCreate dbPrior jobDesk).db.captures.length
        = 1 ∧
      dbPrior.screenFiles.length = 0 ∧ dbPrior.captures.length = 1 := by
  decide

/-- C8: the Tag Classifier returns a duplicate-free tag list; a vocabulary
label is present exactly when its keyword occurs case-insensitively in the
URL or the extracted text; every returned tag comes from the vocabulary; and
a URL containing `/checkout` always yields the `checkout` tag. -/
theorem claim_C8 : ∀ url ocrText,
    (generateAITags url ocrText).Nodup ∧
      (∀ kw lbl, (kw, lbl) ∈ tagVocab →
        (lbl ∈ generateAITags url ocrText ↔
          (containsSub kw (lowerStr url) ||
            containsSub kw (lowerStr (ocrText.getD []))) = true)) ∧
      (∀ t, t ∈ generateAITags url ocrText → ∃ kw, (kw, t) ∈ tagVocab) ∧
      (containsSub ("/checkout".toList) url = true →
        "checkout".toList ∈ generateAITags url ocrText) := by
  intro url ocrText
  exact ⟨generateAITags_nodup url ocrText,
    fun kw lbl hv => generateAITags_mem_iff url ocrText kw lbl hv,
    fun t ht => generateAITags_complete url ocrText t ht,
    fun h => generateAITags_checkout url ocrText h⟩

/-- C8 witness: a `/checkout` URL yields the `checkout` tag, inside a
duplicate-free tag list. -/
theorem claim_C8_witness :
    "checkout".toList ∈
        generateAITags ("https://shop.example/checkout".toList) none ∧
      (generateAITags ("https://shop.example/checkout".toList) none).Nodup :=
  ⟨(claim_C8 ("https://shop.example/checkout".toList) none).2.2.2 (by decide),
    (claim_C8 ("https://shop.example/checkout".toList) none).1⟩

/-- C9: the PII flag is true exactly when one of the four fixed structural
patterns matches the text; and any text containing an email-shaped substring
(local part, at sign, domain, dot, two-or-more-letter top-level domain, with
non-word context around it) is flagged. -/
theorem claim_C9 :
    (∀ text, hasPII text = true ↔
      ∃ re, re ∈ piiPatterns ∧ rtest re text = true) ∧
    (∀ pre loc dom trest post c1 d1 t1 t2,
      isWordOpt (lastOpt none pre) = false →
      c1.isAlphanum = true →
      (∀ c ∈ loc, localCls c = true) →
      domainCls d1 = true →
      (∀ c ∈ dom, domainCls c = true) →
      t1.isAlpha = true → t2.isAlpha = true →
      (∀ c ∈ trest, c.isAlpha = true) →
      isWordOpt post.head? = false →
      hasPII (pre ++ c1 :: (loc ++ '@' :: d1 ::
        (dom ++ '.' :: t1 :: t2 :: (trest ++ post)))) = true) := by
  constructor
  · intro text
    simp [hasPII, List.any_eq_true]
  · intro pre loc dom trest post c1 d1 t1 t2 h1 h2 h3 h4 h5 h6 h7 h8 h9
    exact hasPII_of_email pre loc dom trest post c1 d1 t1 t2
      h1 h2 h3 h4 h5 h6 h7 h8 h9

/-- C9 witness: a text containing `bob@site.org` is flagged as PII. -/
theorem claim_C9_witness :
    hasPII ("reach me at bob@site.org".toList) = true := by
  rw [show ("reach me at bob@site.org".toList) =
    "reach me at ".toList ++ 'b' :: ("ob".toList ++ '@' :: 's' ::
      ("ite".toList ++ '.' :: 'o' :: 'r' :: ("g".toList ++ []))) from by decide]
  exact claim_C9.2 ("reach me at ".toList) ("ob".toList) ("ite".toList)
    ("g".toList) [] 'b' 's' 'o' 'r' (by decide) (by decide) (by decide)
    (by decide) (by decide) (by decide) (by decide) (by decide) (by decide)

/-- C10: the change detector is a binary signal — every score it returns is 0
or 0.5, with 0 exactly for "no prior capture" or "equal image hash"; and a
database whose captures all carry score 0 or 0.5 still does after any
`processJob` run, so no persisted capture ever carries another score. -/
theorem claim_C10 :
    (∀ db sid hsh, calculateDiffScore db sid hsh = 0 ∨
      calculateDiffScore db sid hsh = 1 / 2) ∧
    (∀ db sid hsh,
      (db.captures.filter fun c => c.screenId == sid).head? = none →
      calculateDiffScore db sid hsh = 0) ∧
    (∀ db sid hsh p,
      (db.captures.filter fun c => c.screenId == sid).head? = some p →
      calculateDiffScore db sid hsh =
        if p.imgHash == hsh then 0 else 1 / 2) ∧
    (∀ env db0 job,
      (∀ c ∈ db0.captures, c.diffScore = 0 ∨ c.diffScore = 1 / 2) →
      ∀ c ∈ (processJob env db0 job).db.captures,
        c.diffScore = 0 ∨ c.diffScore = 1 / 2) := by
  refine ⟨?_, ?_, ?_, ?_⟩
  · intro db sid hsh
    rcases calculateDiffScore_cases db sid hsh with h | h
    · exact Or.inl h
    · exact Or.inr (by rw [h, halfScore_eq])
  · intro db sid hsh hn
    unfold calculateDiffScore
    rw [hn]
  · intro db sid hsh p hp
    rw [calculateDiffScore_prior db sid hsh p hp, halfScore_eq]
  · intro env db0 job hall c hc
    rcases processJob_captures_cases env db0 job with hcs | hcs
    · rw [hcs] at hc
      exact hall c hc
    · rw [hcs] at hc
      rcases List.mem_cons.mp hc with rfl | hc2
      · rcases calculateDiffScore_cases (dbAfterFile env db0 job) job.screenId
          (md5Hex env.screenshot) with h | h
        · exact Or.inl h
        · refine Or.inr ?_
          show calculateDiffScore (dbAfterFile env db0 job) job.screenId
            (md5Hex env.screenshot) = 1 / 2
          rw [h, halfScore_eq]
      · exact hall c hc2

/-- C10 witness: the prior capture of the fixture store keeps a score in
{0, 0.5} after a further run. -/
theorem claim_C10_witness :
    capPrior.diffScore = 0 ∨ capPrior.diffScore = 1 / 2 := by
  refine claim_C10.2.2.2 envOk dbPrior jobDesk ?_ capPrior ?_
  · intro c hc
    simp only [dbPrior, List.mem_singleton] at hc
    subst hc
    exact Or.inl rfl
  · decide
